import Mathlib

/-!
# Verification of the `histodu` directory-size-histogram tool

Shallow embedding of the two traversal engines of the repository:

* `src/lib.rs`: the rayon-based traversal (`dir_size_histogram` /
  `traverse_dir`), modelled over an abstract file-system tree with
  explicit fault flags for each fallible syscall;
* `src/main.rs`: the io_uring batch engine (`Worker`), modelled by its
  completion-tag arithmetic, its occupancy-mask bookkeeping, its
  directory-entry enumeration loop, and its drop guard.

All definitions are executable; machine integers (`u64`/`i64`) are
modelled as `Nat` with explicit `2 ^ 64` bounds where overflow matters.
-/

namespace Histodu

/-! ## File-system model for `src/lib.rs`

A node carries the data the traversal consults:
* `size`: `metadata().len()` of the object;
* `dev`: `metadata().dev()` (device identifier);
* `typeOk`: whether `DirEntry::file_type()` succeeds for this entry;
* `metaOk`: whether `DirEntry::metadata()` succeeds for this entry;
* `readable` (directories): whether `std::fs::read_dir` on the
  directory's path succeeds.

`FsEntries` is the list of results yielded by the `read_dir` iterator:
`consErr` is an entry whose read fails (`Err` item of the iterator).
Symlinks are kept separate from regular files because both are
non-directories for the traversal (`file_type().is_dir()` and
`metadata()` never follow symlinks) while only `file` is a regular file.
-/

mutual

inductive FsNode where
  | file (size dev : Nat) (typeOk metaOk : Bool)
  | symlink (size dev : Nat) (typeOk metaOk : Bool)
  | dir (dev : Nat) (typeOk metaOk readable : Bool) (entries : FsEntries)

inductive FsEntries where
  | nil
  | consOk (n : FsNode) (rest : FsEntries)
  | consErr (rest : FsEntries)

end

/-- The non-directory branch of the spawned task body
(src/lib.rs:103-116): a size is recorded unless it is zero and
`include_empty` is disabled. -/
def recordNonDir (ie : Bool) (sz : Nat) : List Nat × Nat :=
  if sz = 0 && !ie then ([], 0) else ([sz], 0)

mutual

/-- The per-entry task body spawned by `traverse_dir`
(src/lib.rs:82-126), for one successfully read `DirEntry`.  `ie` is
`config.include_empty`, `ed` is `expect_dev_id`.  Returns the list of
sizes recorded and the number of `on_error` reports emitted for this
entry's subtree.  With the device filter on, `ent.metadata()` is the
single fallible call (gated by `metaOk`) and an entry on another device
returns early; without it, `ent.file_type()` (gated by `typeOk`) and,
for non-directories, `ent.metadata()` (gated by `metaOk`) are used. -/
def visitEntry (ie : Bool) (ed : Option Nat) : FsNode → List Nat × Nat
  | FsNode.file sz dv tok mok =>
    match ed with
    | some d =>
      if !mok then ([], 1)
      else if dv ≠ d then ([], 0)
      else recordNonDir ie sz
    | none =>
      if !tok then ([], 1)
      else if !mok then ([], 1)
      else recordNonDir ie sz
  | FsNode.symlink sz dv tok mok =>
    match ed with
    | some d =>
      if !mok then ([], 1)
      else if dv ≠ d then ([], 0)
      else recordNonDir ie sz
    | none =>
      if !tok then ([], 1)
      else if !mok then ([], 1)
      else recordNonDir ie sz
  | FsNode.dir dv tok mok readable ents =>
    match ed with
    | some d =>
      if !mok then ([], 1)
      else if dv ≠ d then ([], 0)
      else if readable then visitList ie ed ents else ([], 1)
    | none =>
      if !tok then ([], 1)
      else if readable then visitList ie ed ents else ([], 1)

/-- The entry loop of `traverse_dir` (src/lib.rs:78-127): an `Err`
item of the `read_dir` iterator is reported and skipped (`continue`);
an `Ok` item is handed to the spawned task. -/
def visitList (ie : Bool) (ed : Option Nat) : FsEntries → List Nat × Nat
  | FsEntries.nil => ([], 0)
  | FsEntries.consOk n rest =>
    let a := visitEntry ie ed n
    let r := visitList ie ed rest
    (a.1 ++ r.1, a.2 + r.2)
  | FsEntries.consErr rest =>
    let r := visitList ie ed rest
    (r.1, r.2 + 1)

end

/-- `traverse_dir` applied to the root path (src/lib.rs:67-127):
`read_dir` fails when the root is not a readable directory; the failure
is reported and traversal of that subtree stops. -/
def traverseRoot (ie : Bool) (ed : Option Nat) : FsNode → List Nat × Nat
  | FsNode.dir _ _ _ readable ents =>
    if readable then visitList ie ed ents else ([], 1)
  | _ => ([], 1)

/-- `dir_size_histogram` (src/lib.rs:27-63).  `rootMeta` is the root's
device id as obtained by `std::fs::metadata(root_path)?.dev()`; `none`
models both a failed metadata call on unix and a non-unix platform
(where the code constructs an `Unsupported` error instead).  In either
failure case the error is emitted through `on_error` and then
propagated with `?`, so the function returns `Err(())`.  Output:
(histogram contents if `Ok`, total `on_error` reports). -/
def dirSizeHistogram (oneFileSystem ie : Bool) (rootMeta : Option Nat)
    (root : FsNode) : Option (List Nat) × Nat :=
  if oneFileSystem then
    match rootMeta with
    | none => (none, 1)
    | some d =>
      let r := traverseRoot ie (some d) root
      (some r.1, r.2)
  else
    let r := traverseRoot ie none root
    (some r.1, r.2)

/-- Whether a node is a directory (`file_type().is_dir()`). -/
def FsNode.isDir : FsNode → Bool
  | FsNode.dir .. => true
  | _ => false

/-! ### Counting functions over the tree model -/

mutual

/-- Number of non-directory objects (regular files, symlinks, …) in a
node's subtree, the node itself included when it is not a directory. -/
def nonDirCount : FsNode → Nat
  | FsNode.file .. => 1
  | FsNode.symlink .. => 1
  | FsNode.dir _ _ _ _ ents => nonDirCountList ents

def nonDirCountList : FsEntries → Nat
  | FsEntries.nil => 0
  | FsEntries.consOk n rest => nonDirCount n + nonDirCountList rest
  | FsEntries.consErr rest => nonDirCountList rest

end

mutual

/-- Number of zero-size non-directory objects in a node's subtree. -/
def zeroNonDirCount : FsNode → Nat
  | FsNode.file sz _ _ _ => if sz = 0 then 1 else 0
  | FsNode.symlink sz _ _ _ => if sz = 0 then 1 else 0
  | FsNode.dir _ _ _ _ ents => zeroNonDirCountList ents

def zeroNonDirCountList : FsEntries → Nat
  | FsEntries.nil => 0
  | FsEntries.consOk n rest => zeroNonDirCount n + zeroNonDirCountList rest
  | FsEntries.consErr rest => zeroNonDirCountList rest

end

mutual

/-- Number of regular files in a node's subtree (symlinks and other
non-directory objects excluded).  This definition follows the spec's
words "the number of regular files in the tree"; it is compared against
the count the code actually records. -/
def regularFileCount : FsNode → Nat
  | FsNode.file .. => 1
  | FsNode.symlink .. => 0
  | FsNode.dir _ _ _ _ ents => regularFileCountList ents

def regularFileCountList : FsEntries → Nat
  | FsEntries.nil => 0
  | FsEntries.consOk n rest => regularFileCount n + regularFileCountList rest
  | FsEntries.consErr rest => regularFileCountList rest

end

mutual

/-- A subtree is fault-free when every syscall the traversal issues on
it succeeds: `file_type` and `metadata` on every entry, `read_dir` on
every directory, and no entry read fails. -/
def faultFree : FsNode → Bool
  | FsNode.file _ _ tok mok => tok && mok
  | FsNode.symlink _ _ tok mok => tok && mok
  | FsNode.dir _ tok mok readable ents =>
    tok && mok && readable && faultFreeList ents

def faultFreeList : FsEntries → Bool
  | FsEntries.nil => true
  | FsEntries.consOk n rest => faultFree n && faultFreeList rest
  | FsEntries.consErr _ => false

end

mutual

/-- Number of sizes a fault-free entry contributes under the
empty-file policy: every non-directory except the zero-size ones when
`include_empty` is disabled. -/
def countRecorded (ie : Bool) : FsNode → Nat
  | FsNode.file sz _ _ _ => if sz = 0 && !ie then 0 else 1
  | FsNode.symlink sz _ _ _ => if sz = 0 && !ie then 0 else 1
  | FsNode.dir _ _ _ _ ents => countRecordedList ie ents

def countRecordedList (ie : Bool) : FsEntries → Nat
  | FsEntries.nil => 0
  | FsEntries.consOk n rest => countRecorded ie n + countRecordedList ie rest
  | FsEntries.consErr rest => countRecordedList ie rest

end

mutual

theorem countRecorded_add_zero (ie : Bool) : ∀ n : FsNode,
    countRecorded ie n + (if ie then 0 else zeroNonDirCount n) = nonDirCount n
  | FsNode.file sz dv tok mok => by
    cases ie <;> by_cases h : sz = 0 <;>
      simp [countRecorded, zeroNonDirCount, nonDirCount, h]
  | FsNode.symlink sz dv tok mok => by
    cases ie <;> by_cases h : sz = 0 <;>
      simp [countRecorded, zeroNonDirCount, nonDirCount, h]
  | FsNode.dir dv tok mok readable ents => by
    have h := countRecordedList_add_zero ie ents
    simpa [countRecorded, zeroNonDirCount, nonDirCount] using h

theorem countRecordedList_add_zero (ie : Bool) : ∀ l : FsEntries,
    countRecordedList ie l + (if ie then 0 else zeroNonDirCountList l) =
      nonDirCountList l
  | FsEntries.nil => by
    simp [countRecordedList, zeroNonDirCountList, nonDirCountList]
  | FsEntries.consOk n rest => by
    have h1 := countRecorded_add_zero ie n
    have h2 := countRecordedList_add_zero ie rest
    cases ie <;>
      simp_all [countRecordedList, zeroNonDirCountList, nonDirCountList] <;>
      omega
  | FsEntries.consErr rest => by
    have h := countRecordedList_add_zero ie rest
    simpa [countRecordedList, zeroNonDirCountList, nonDirCountList] using h

end

mutual

theorem visitEntry_length (ie : Bool) : ∀ n : FsNode,
    faultFree n = true →
      (visitEntry ie none n).1.length = countRecorded ie n
  | FsNode.file sz dv tok mok, h => by
    simp only [faultFree, Bool.and_eq_true] at h
    by_cases hz : sz = 0 <;>
      simp [visitEntry, recordNonDir, countRecorded, h.1, h.2, hz] <;>
      cases ie <;> simp
  | FsNode.symlink sz dv tok mok, h => by
    simp only [faultFree, Bool.and_eq_true] at h
    by_cases hz : sz = 0 <;>
      simp [visitEntry, recordNonDir, countRecorded, h.1, h.2, hz] <;>
      cases ie <;> simp
  | FsNode.dir dv tok mok readable ents, h => by
    simp only [faultFree, Bool.and_eq_true] at h
    have hl := visitList_length ie ents h.2
    simpa [visitEntry, countRecorded, h.1.1.1, h.1.2] using hl

theorem visitList_length (ie : Bool) : ∀ l : FsEntries,
    faultFreeList l = true →
      (visitList ie none l).1.length = countRecordedList ie l
  | FsEntries.nil, _ => by
    simp [visitList, countRecordedList]
  | FsEntries.consOk n rest, h => by
    simp only [faultFreeList, Bool.and_eq_true] at h
    have h1 := visitEntry_length ie n h.1
    have h2 := visitList_length ie rest h.2
    simp [visitList, countRecordedList, h1, h2]
  | FsEntries.consErr rest, h => by
    simp [faultFreeList] at h

end

/-! ## Claim theorems about the `src/lib.rs` traversal -/

/-- A fault-free root directory containing exactly one symlink of size
5 (and no regular file at all). -/
def symlinkOnlyTree : FsNode :=
  FsNode.dir 0 true true true
    (FsEntries.consOk (FsNode.symlink 5 0 true true) FsEntries.nil)

/-- C1 (counterexample): the traversal records the sizes of all
non-directory entries, symlinks included, so on a tree whose only entry
is a symlink it records one size although the tree contains zero
regular files; with `include_empty` enabled nothing is excluded, so the
claim's predicted count is `regularFileCount - 0 = 0 ≠ 1`. -/
theorem recordedCount_ne_regularFileCount :
    (traverseRoot true none symlinkOnlyTree).1.length ≠
      regularFileCount symlinkOnlyTree - 0 := by
  decide

/-- C1 (amended): for every fault-free directory tree and both settings
of `include_empty`, the number of sizes recorded by a completed
traversal equals the number of non-directory entries in the tree minus
those excluded by the empty-file policy (the zero-size ones when
`include_empty` is disabled). -/
theorem recordedCount_eq_nonDirCount_sub_excluded (ie : Bool)
    (root : FsNode) (hff : faultFree root = true)
    (hdir : root.isDir = true) :
    (traverseRoot ie none root).1.length =
      nonDirCount root - (if ie then 0 else zeroNonDirCount root) := by
  cases root with
  | file sz dv tok mok => simp [FsNode.isDir] at hdir
  | symlink sz dv tok mok => simp [FsNode.isDir] at hdir
  | dir dv tok mok readable ents =>
    simp only [faultFree, Bool.and_eq_true] at hff
    have hl := visitList_length ie ents hff.2
    have ha := countRecordedList_add_zero ie ents
    cases ie <;>
      simp_all [traverseRoot, nonDirCount, zeroNonDirCount, hff.1.2] <;>
      omega

/-- C1 (witness): the amended count law evaluated on a concrete tree
with one empty and one non-empty file, with `include_empty` disabled. -/
theorem recordedCount_eq_nonDirCount_sub_excluded_witness :
    (traverseRoot false none
        (FsNode.dir 0 true true true
          (FsEntries.consOk (FsNode.file 0 0 true true)
            (FsEntries.consOk (FsNode.file 7 0 true true)
              FsEntries.nil)))).1.length =
      nonDirCount
          (FsNode.dir 0 true true true
            (FsEntries.consOk (FsNode.file 0 0 true true)
              (FsEntries.consOk (FsNode.file 7 0 true true)
                FsEntries.nil))) -
        (if false then 0 else
          zeroNonDirCount
            (FsNode.dir 0 true true true
              (FsEntries.consOk (FsNode.file 0 0 true true)
                (FsEntries.consOk (FsNode.file 7 0 true true)
                  FsEntries.nil)))) :=
  recordedCount_eq_nonDirCount_sub_excluded false
    (FsNode.dir 0 true true true
      (FsEntries.consOk (FsNode.file 0 0 true true)
        (FsEntries.consOk (FsNode.file 7 0 true true)
          FsEntries.nil)))
    (by decide) (by decide)

/-- C2 (counterexample): requesting the one-file-system filter when no
device id can be determined (non-unix platform, modelled by
`rootMeta = none`) makes `dir_size_histogram` report one error and
return `Err(())`: the first component is `none`, i.e. no histogram is
produced, refuting "still runs to completion producing a histogram; it
does not fail the whole run". -/
theorem oneFileSystem_unsupported_fails_run :
    (dirSizeHistogram true true none
        (FsNode.dir 0 true true true FsEntries.nil)).1 = none ∧
      (dirSizeHistogram true true none
          (FsNode.dir 0 true true true FsEntries.nil)).2 = 1 := by
  decide

/-- C2 (amended): when the one-file-system filter is requested on a
platform without device-identifier metadata, the core reports this
through the error sink (exactly one report) and fails the whole run:
`dir_size_histogram` returns `Err(())` and no histogram is produced;
the filter is not disabled and no traversal takes place. -/
theorem oneFileSystem_unsupported_reports_and_errs (ie : Bool)
    (root : FsNode) :
    dirSizeHistogram true ie none root = (none, 1) := by
  simp [dirSizeHistogram]

/-- C10: `dir_size_histogram` returns `Err(())` exactly when the
one-file-system filter is requested and the root's device identifier
cannot be determined; for every other input — any tree, with any
combination of unreadable directories, failed entry reads and failed
metadata lookups — it returns `Ok` with a histogram (the failures
having been reported through `on_error` and the affected entries or
subtrees skipped). -/
theorem dirSizeHistogram_err_iff (ofs ie : Bool) (rootMeta : Option Nat)
    (root : FsNode) :
    (dirSizeHistogram ofs ie rootMeta root).1 = none ↔
      ofs = true ∧ rootMeta = none := by
  cases ofs <;> cases rootMeta <;> simp [dirSizeHistogram]

/-! ## io_uring batch engine model (`src/main.rs`)

The `Worker`'s ring bookkeeping works on `u64` values
(`active_mask`, `user_data`); they are modelled as `Nat` with the
modulus `2 ^ 64` made explicit where the Rust code relies on wrapping
or reinterpretation (`as i64`, `!x`). -/

/-- Ring capacity `IO_URING_ENTRIES` (src/main.rs:87). -/
def IO_URING_ENTRIES : Nat := 64

/-- `BUF_MASK_ALL = !0u64` (src/main.rs:88): the fully-occupied mask. -/
def BUF_MASK_ALL : Nat := 2 ^ 64 - 1

/-- Number of `u64` values. -/
def U64_CARD : Nat := 2 ^ 64

/-- `user_data(buf_idx as u64)` of a file `statx` operation
(src/main.rs:158). -/
def fileUserData (bufIdx : Nat) : Nat := bufIdx % U64_CARD

/-- `user_data(!(buf_idx as u64))` of a directory `openat` operation
(src/main.rs:168): bitwise complement on `u64` is `2^64 - 1 - x`. -/
def dirUserData (bufIdx : Nat) : Nat := (U64_CARD - 1) - bufIdx % U64_CARD

/-- `ent.user_data() as i64` (src/main.rs:178): two's-complement
reinterpretation of the `u64` bit pattern. -/
def dataAsI64 (u : Nat) : Int :=
  if u < 2 ^ 63 then (u : Int) else (u : Int) - (U64_CARD : Int)

/-- The completion handler's operation-kind discriminant
`data >= 0` (src/main.rs:179,186): non-negative signed value = file. -/
def cqeIsFile (u : Nat) : Bool := decide (0 ≤ dataAsI64 u)

/-- The slot index recovered by the completion handler
(src/main.rs:179): `if data >= 0 { data } else { !data } as usize`;
for negative `data : i64`, `!data = -data - 1`, which on the `u64` bit
pattern is `2^64 - 1 - u`. -/
def cqeBufIdx (u : Nat) : Nat :=
  if 0 ≤ dataAsI64 u then u else (U64_CARD - 1) - u

/-- One completion-queue entry: the tag it carries and the syscall
result. -/
structure Cqe where
  userData : Nat
  result : Int

/-- Routing of one completion in `Worker::submit_and_complete`
(src/main.rs:177-210).  `bufs i` is `self.bufs[i].stx_size`.  Output:
(sizes recorded into the histogram, raw fds handed to new directory
tasks, errors reported). -/
def handleCqe (ie : Bool) (bufs : Nat → Nat) (c : Cqe) :
    List Nat × List Int × Nat :=
  let bufIdx := cqeBufIdx c.userData
  if 0 ≤ c.result then
    if cqeIsFile c.userData then
      let sz := bufs bufIdx
      if ie || sz != 0 then ([sz], [], 0) else ([], [], 0)
    else ([], [c.result], 0)
  else ([], [], 1)

/-- C7: the completion-tag encoding round-trips.  For every slot index
below the ring capacity, a file operation's tag decodes as a file with
the same index and a directory operation's tag decodes as a directory
with the same index, so the two operation kinds are never confused. -/
theorem userData_roundTrip (i : Nat) (h : i < IO_URING_ENTRIES) :
    cqeIsFile (fileUserData i) = true ∧ cqeBufIdx (fileUserData i) = i ∧
      cqeIsFile (dirUserData i) = false ∧ cqeBufIdx (dirUserData i) = i := by
  have h64 : i < IO_URING_ENTRIES := h
  simp only [IO_URING_ENTRIES] at h64
  have hmod : i % U64_CARD = i := Nat.mod_eq_of_lt (by simp only [U64_CARD]; omega)
  have hfile : dataAsI64 (fileUserData i) = (i : Int) := by
    simp only [fileUserData, hmod, dataAsI64]
    rw [if_pos (by omega)]
  have hdirval : dirUserData i = (U64_CARD - 1) - i := by
    simp only [dirUserData, hmod]
  have hdir : dataAsI64 (dirUserData i) = ((U64_CARD - 1 - i : Nat) : Int) - (U64_CARD : Int) := by
    simp only [hdirval, dataAsI64]
    rw [if_neg (by simp only [U64_CARD]; omega)]
  have hneg : ¬ (0 ≤ dataAsI64 (dirUserData i)) := by
    rw [hdir]
    have : ((U64_CARD - 1 - i : Nat) : Int) < (U64_CARD : Int) := by
      exact_mod_cast Nat.lt_of_le_of_lt (Nat.sub_le _ _) (by simp [U64_CARD])
    omega
  refine ⟨?_, ?_, ?_, ?_⟩
  · simp [cqeIsFile, hfile]
  · rw [cqeBufIdx, if_pos (by rw [hfile]; exact Int.natCast_nonneg i)]
    simp [fileUserData, hmod]
  · simp [cqeIsFile, hneg]
  · rw [cqeBufIdx, if_neg hneg, hdirval]
    simp only [U64_CARD]
    omega

/-- C7 (witness): the round-trip law at slot index 5. -/
theorem userData_roundTrip_witness :
    cqeIsFile (fileUserData 5) = true ∧ cqeBufIdx (fileUserData 5) = 5 ∧
      cqeIsFile (dirUserData 5) = false ∧ cqeBufIdx (dirUserData 5) = 5 :=
  userData_roundTrip 5 (by decide)

/-- C5: on a successful completion decoded as a file lookup, the size
read from the slot's `statx` buffer is recorded exactly when it is
nonzero or `include_empty` is enabled; in particular a zero-byte size
is recorded only when `include_empty` is enabled. -/
theorem fileCompletion_record_iff (ie : Bool) (bufs : Nat → Nat) (c : Cqe)
    (hres : 0 ≤ c.result) (hfile : cqeIsFile c.userData = true) :
    ((handleCqe ie bufs c).1 = [bufs (cqeBufIdx c.userData)] ↔
        (bufs (cqeBufIdx c.userData) ≠ 0 ∨ ie = true)) ∧
      ((handleCqe ie bufs c).1 = [] ↔
        (bufs (cqeBufIdx c.userData) = 0 ∧ ie = false)) := by
  simp only [handleCqe, if_pos hres, hfile, if_pos]
  by_cases hz : bufs (cqeBufIdx c.userData) = 0 <;> cases ie <;> simp [hz]

/-- C5 (witness): a successful zero-size file completion is dropped
when `include_empty` is off and the same slot's size is recorded when
it is nonzero. -/
theorem fileCompletion_record_iff_witness :
    ((handleCqe false (fun _ => 0) ⟨3, 0⟩).1 = [(fun (_ : Nat) => 0) (cqeBufIdx 3)] ↔
        ((fun (_ : Nat) => 0) (cqeBufIdx 3) ≠ 0 ∨ false = true)) ∧
      ((handleCqe false (fun _ => 0) ⟨3, 0⟩).1 = [] ↔
        ((fun (_ : Nat) => 0) (cqeBufIdx 3) = 0 ∧ false = false)) :=
  fileCompletion_record_iff false (fun _ => 0) ⟨3, 0⟩ (by decide)
    (by decide)

/-! ### Occupancy-mask bookkeeping -/

/-- `u64::trailing_ones`: the number of consecutive set bits starting
from bit 0, used for lowest-free-slot allocation (src/main.rs:142). -/
def trailingOnes (n : Nat) : Nat :=
  if h : n % 2 = 1 then trailingOnes (n / 2) + 1 else 0
decreasing_by exact Nat.bitwise_rec_lemma (by omega)

/-- `self.active_mask ^= 1 << buf_idx`, the completion handler's slot
release (src/main.rs:181). -/
def completeOne (mask idx : Nat) : Nat := mask ^^^ (1 <<< idx)

/-- The completion loop of `submit_and_complete` releasing the slots
of the observed completions in order (src/main.rs:177-181). -/
def completeAll (mask : Nat) (idxs : List Nat) : Nat :=
  idxs.foldl completeOne mask

/-- Slot allocation in `Worker::enqueue` (src/main.rs:136-143): when
the ring is fully occupied, `submit_and_complete(1, s)` first observes
the completions `cs`; then the lowest free slot
`active_mask.trailing_ones()` is chosen — the index the
`assert!(buf_idx < IO_URING_ENTRIES)` checks. -/
def enqueueAllocIdx (mask : Nat) (cs : List Nat) : Nat :=
  let m := if mask = BUF_MASK_ALL then completeAll mask cs else mask
  trailingOnes m

/-- `u64::count_ones` (popcount), as used for the final drain count
(src/main.rs:260). -/
def countOnes (n : Nat) : Nat :=
  if h : n = 0 then 0 else n % 2 + countOnes (n / 2)
decreasing_by exact Nat.bitwise_rec_lemma h

/-- End-of-directory drain in `Worker::traverse_dir`
(src/main.rs:259-263): read the pending count from the mask and, when
it is nonzero, run `submit_and_complete(pendings, s)`, whose completion
loop releases the slots of the observed completions `cs`. -/
def drainPendingMask (mask : Nat) (cs : List Nat) : Nat :=
  if countOnes mask ≠ 0 then completeAll mask cs else mask

/-- Outcome of `Worker`'s teardown. -/
inductive DropOutcome where
  | aborts
  | releases
deriving DecidableEq

/-- `impl Drop for Worker` (src/main.rs:104-111): if any ring slot is
still occupied, print the mask and `std::process::abort()`; otherwise
the buffers and descriptors are released normally. -/
def workerDropOutcome (activeMask : Nat) : DropOutcome :=
  if activeMask ≠ 0 then DropOutcome.aborts else DropOutcome.releases

/-! ### Mask lemmas -/

theorem testBit_completeOne (m i j : Nat) :
    (completeOne m i).testBit j = ((m.testBit j).xor (decide (i = j))) := by
  simp [completeOne, Nat.testBit_xor, Nat.one_shiftLeft, Nat.testBit_two_pow]

theorem testBit_completeAll (cs : List Nat) (hnd : cs.Nodup) (m j : Nat) :
    (completeAll m cs).testBit j = ((m.testBit j).xor (decide (j ∈ cs))) := by
  induction cs generalizing m with
  | nil => simp [completeAll]
  | cons c rest ih =>
    have hnd' : rest.Nodup := (List.nodup_cons.mp hnd).2
    have hc : c ∉ rest := (List.nodup_cons.mp hnd).1
    have : completeAll m (c :: rest) = completeAll (completeOne m c) rest := rfl
    rw [this, ih hnd', testBit_completeOne]
    by_cases hjc : j = c
    · subst hjc
      simp [hc]
    · have hcj : c ≠ j := fun h => hjc h.symm
      simp [hjc, hcj]

theorem completeAll_lt_two_pow (cs : List Nat) (hnd : cs.Nodup)
    (m : Nat) (hm : m < 2 ^ 64) (hlt : ∀ i ∈ cs, i < 64) :
    completeAll m cs < 2 ^ 64 := by
  apply Nat.lt_pow_two_of_testBit
  intro j hj
  rw [testBit_completeAll cs hnd]
  have h1 : m.testBit j = false := by
    apply Nat.testBit_lt_two_pow
    calc m < 2 ^ 64 := hm
      _ ≤ 2 ^ j := Nat.pow_le_pow_right (by omega) hj
  have h2 : j ∉ cs := fun hmem => by
    have := hlt j hmem
    omega
  simp [h1, h2]

theorem trailingOnes_lt (k : Nat) : ∀ m : Nat, m < 2 ^ k → m ≠ 2 ^ k - 1 →
    trailingOnes m < k := by
  induction k with
  | zero =>
    intro m hm hne
    interval_cases m
    simp at hne
  | succ k ih =>
    intro m hm hne
    rw [trailingOnes]
    by_cases hpar : m % 2 = 1
    · rw [dif_pos hpar]
      have h1 : m / 2 < 2 ^ k := by
        rw [Nat.pow_succ] at hm
        omega
      have h2 : m / 2 ≠ 2 ^ k - 1 := by
        intro hEq
        apply hne
        rw [Nat.pow_succ]
        have hpos : 0 < 2 ^ k := Nat.pos_pow_of_pos k (by omega)
        omega
      have := ih (m / 2) h1 h2
      omega
    · rw [dif_neg hpar]
      omega

/-- C6: whenever `enqueue` is called, the slot index it chooses is
below the ring capacity, so `assert!(buf_idx < IO_URING_ENTRIES)`
holds.  When the ring is fully occupied, the `submit_and_complete(1,s)`
call first blocks until at least one completion is observed
(`cs ≠ []`); the observed completions carry distinct occupied slot
indices below the capacity, so at least one slot is freed before the
lowest-free-slot scan runs. -/
theorem enqueue_alloc_idx_lt (mask : Nat) (cs : List Nat)
    (hm : mask ≤ BUF_MASK_ALL)
    (hfull : mask = BUF_MASK_ALL →
      cs ≠ [] ∧ cs.Nodup ∧ ∀ i ∈ cs, i < IO_URING_ENTRIES) :
    enqueueAllocIdx mask cs < IO_URING_ENTRIES := by
  unfold enqueueAllocIdx
  by_cases hfl : mask = BUF_MASK_ALL
  · obtain ⟨hne, hnd, hlt⟩ := hfull hfl
    rw [if_pos hfl]
    subst hfl
    have hlt64 : ∀ i ∈ cs, i < 64 := hlt
    have hmask : (2 ^ 64 - 1 : Nat) < 2 ^ 64 := by omega
    apply trailingOnes_lt 64
    · exact completeAll_lt_two_pow cs hnd _ hmask hlt64
    · obtain ⟨c, hc⟩ := List.exists_mem_of_ne_nil cs hne
      intro hEq
      have hb : Nat.testBit (2 ^ 64 - 1) c =
          ((2 ^ 64 - 1 : Nat).testBit c).xor (decide (c ∈ cs)) := by
        have hb0 := testBit_completeAll cs hnd BUF_MASK_ALL c
        rw [hEq] at hb0
        exact hb0
      have hcl : c < 64 := hlt64 c hc
      simp [Nat.testBit_two_pow_sub_one, hcl, hc] at hb
  · rw [if_neg hfl]
    apply trailingOnes_lt 64 mask
    · have hball : (BUF_MASK_ALL : Nat) = 2 ^ 64 - 1 := rfl
      omega
    · exact hfl

/-- C6 (witness): a fully occupied ring from which completion of slot
0 is observed allocates slot 0, which is below the capacity. -/
theorem enqueue_alloc_idx_lt_witness :
    enqueueAllocIdx BUF_MASK_ALL [0] < IO_URING_ENTRIES :=
  enqueue_alloc_idx_lt BUF_MASK_ALL [0] (Nat.le_refl _)
    (fun _ => ⟨by simp, List.nodup_singleton 0, by decide⟩)

theorem eq_zero_of_countOnes_eq_zero : ∀ n : Nat, countOnes n = 0 → n = 0
  | n => fun h0 => by
    by_cases h : n = 0
    · exact h
    · have hunf : countOnes n = n % 2 + countOnes (n / 2) := by
        rw [countOnes, dif_neg h]
      rw [hunf] at h0
      have h2 : countOnes (n / 2) = 0 := by omega
      have h3 := eq_zero_of_countOnes_eq_zero (n / 2) h2
      omega
decreasing_by exact Nat.bitwise_rec_lemma h

/-- C8: the end-of-directory drain leaves the occupancy mask at zero.
When the pending count read from the mask is nonzero,
`submit_and_complete(pendings, s)` waits for and processes completions
for exactly the pending operations — the observed completion indices
are distinct and are precisely the set bits of the mask — and releasing
them all clears every bit; when it is zero the mask is already zero. -/
theorem drain_zeroes_mask (mask : Nat) (cs : List Nat) (hnd : cs.Nodup)
    (hbits : ∀ i, mask.testBit i = true ↔ i ∈ cs) :
    drainPendingMask mask cs = 0 := by
  unfold drainPendingMask
  by_cases h0 : countOnes mask = 0
  · rw [if_neg (by omega)]
    exact eq_zero_of_countOnes_eq_zero mask h0
  · rw [if_pos h0]
    apply Nat.eq_of_testBit_eq
    intro j
    rw [testBit_completeAll cs hnd, Nat.zero_testBit]
    by_cases hj : j ∈ cs
    · simp [(hbits j).mpr hj, hj]
    · have hmb : mask.testBit j = false := by
        rcases Bool.eq_false_or_eq_true (mask.testBit j) with h | h
        · exact absurd ((hbits j).mp h) hj
        · exact h
      simp [hmb, hj]

/-- C8 (witness): a mask with exactly slot 0 pending drains to zero
when slot 0's completion is observed. -/
theorem drain_zeroes_mask_witness : drainPendingMask 1 [0] = 0 :=
  drain_zeroes_mask 1 [0] (List.nodup_singleton 0) (by
    intro i
    cases i with
    | zero => simp
    | succ j => simp [Nat.testBit_succ])

/-- C9: if the worker's destructor runs while the ring still reports
occupied slots, the process aborts immediately instead of releasing
the buffers and descriptors backing the pending operations. -/
theorem worker_drop_aborts (activeMask : Nat) (h : activeMask ≠ 0) :
    workerDropOutcome activeMask = DropOutcome.aborts := by
  simp [workerDropOutcome, h]

/-- C9 (witness): teardown with slots 0 and 2 still occupied aborts. -/
theorem worker_drop_aborts_witness :
    workerDropOutcome 5 = DropOutcome.aborts :=
  worker_drop_aborts 5 (by decide)

/-! ### Directory-entry enumeration (the `RawDir` loop)

`Worker::traverse_dir` (src/main.rs:226-255) lists a directory into
`dirent_buf`'s spare capacity; `rustix::fs::RawDir` issues one
`getdents64` per refill.  The kernel keeps the read position on the
open directory: a batch that is returned advances it, a call failing
with `EINVAL` (buffer too small for the next record) does not. -/

/-- One directory-entry record: an identifying name and the length in
bytes its record occupies in the listing buffer (`d_reclen`). -/
structure DirEnt where
  name : Nat
  recLen : Nat
deriving DecidableEq

/-- Kernel-side fill of a listing buffer with `cap` free bytes: the
longest prefix of the not-yet-returned entries whose records fit, and
the remainder. -/
def fillBuf (cap : Nat) : List DirEnt → List DirEnt × List DirEnt
  | [] => ([], [])
  | e :: rest =>
    if e.recLen ≤ cap then
      (e :: (fillBuf (cap - e.recLen) rest).1,
        (fillBuf (cap - e.recLen) rest).2)
    else ([], e :: rest)

/-- One `getdents64` call on an open directory whose not-yet-returned
entries are `pending`: `EINVAL` when even the next record does not fit
(the kernel position does not advance); otherwise the batch that fits
(empty only at end of directory), the position advancing past it. -/
def getdents (cap : Nat) (pending : List DirEnt) :
    Except Unit (List DirEnt × List DirEnt) :=
  match pending with
  | [] => Except.ok ([], [])
  | e :: _ =>
    if cap < e.recLen then Except.error ()
    else Except.ok (fillBuf cap pending)

/-- `Vec::reserve(additional)` on a vector of length 0 and capacity
`cap`: the capacity never shrinks and afterwards is at least
`additional`. -/
def reserveGrow (cap additional : Nat) : Nat := max cap additional

/-- Capacity of `self.dirent_buf` while `Worker::traverse_dir` runs:
`std::mem::take(&mut self.dirent_buf)` (src/main.rs:226) leaves a
fresh empty `Vec` (capacity 0) in the field until src/main.rs:257
restores it. -/
def takenSelfBufCapacity : Nat := 0

/-- The EINVAL resize step the code performs (src/main.rs:254):
`dirent_buf.reserve(self.dirent_buf.capacity() * 2)` — the amount is
read from the emptied field, so zero additional bytes are reserved and
the local buffer keeps its capacity. -/
def codeGrow (cap : Nat) : Nat := reserveGrow cap (takenSelfBufCapacity * 2)

/-- The resize step the spec describes: double the enumeration
buffer's capacity, i.e. what
`dirent_buf.reserve(dirent_buf.capacity() * 2)` would do. -/
def specGrow (cap : Nat) : Nat := reserveGrow cap (cap * 2)

/-- The enumeration loop of `Worker::traverse_dir`
(src/main.rs:227-255), parameterized by the EINVAL growth policy and
supplied with fuel counting listing calls: each returned batch is
drained into `enqueue` before the next listing call; on `EINVAL` the
buffer is grown and a fresh `RawDir` retries from the same kernel
position.  Returns the entries yielded in order, or `none` when the
loop has not finished within `fuel` listing calls. -/
def enumerate (grow : Nat → Nat) :
    Nat → Nat → List DirEnt → Option (List DirEnt)
  | 0, _, _ => none
  | fuel + 1, cap, pending =>
    match getdents cap pending with
    | Except.error _ => enumerate grow fuel (grow cap) pending
    | Except.ok ([], _) => some []
    | Except.ok (e :: batch, rest) =>
      (enumerate grow fuel cap rest).map (fun out => e :: (batch ++ out))

/-- C3: the enumerator does not grow the buffer on an insufficient
listing buffer.  With the initial 4-KiB capacity (src/main.rs:89) and
a directory whose next entry record needs 8192 bytes, the retry loop
reserves zero additional bytes each round, so for every amount of fuel
the enumeration is still spinning on `EINVAL` and has yielded no
entry — against the claim that the capacity doubles and all K entries
are eventually yielded. -/
theorem undersized_buffer_never_grows (fuel : Nat) :
    enumerate codeGrow fuel 4096 [⟨0, 8192⟩] = none := by
  induction fuel with
  | zero => rfl
  | succ n ih =>
    have hg : codeGrow 4096 = 4096 := rfl
    simpa [enumerate, getdents, hg] using ih

/-- Record length of the next not-yet-returned entry (0 at end). -/
def headRecLen : List DirEnt → Nat
  | [] => 0
  | e :: _ => e.recLen

theorem fillBuf_append : ∀ (cap : Nat) (l : List DirEnt),
    (fillBuf cap l).1 ++ (fillBuf cap l).2 = l
  | _, [] => rfl
  | cap, e :: rest => by
    by_cases h : e.recLen ≤ cap
    · have ih := fillBuf_append (cap - e.recLen) rest
      simp [fillBuf, h, ih]
    · simp [fillBuf, h]

/-- With the doubling resize step the spec describes, the enumeration
always finishes and yields exactly the pending entries — none lost,
none duplicated — for every initial capacity ≥ 1.  (This is the
behaviour the claim attributes to the code; together with
`undersized_buffer_never_grows` it shows the resize slip is the only
obstacle.) -/
theorem enumerate_specGrow_yields_all :
    ∀ (pending : List DirEnt) (cap k : Nat), 0 < cap →
      headRecLen pending ≤ cap + k →
      ∃ fuel, enumerate specGrow fuel cap pending = some pending
  | [], _cap, _k, _hc, _hk => ⟨1, by simp [enumerate, getdents]⟩
  | e :: rest, cap, k, hc, hk => by
    by_cases hfit : e.recLen ≤ cap
    · have happ := fillBuf_append cap (e :: rest)
      have hfb : fillBuf cap (e :: rest) =
          (e :: (fillBuf (cap - e.recLen) rest).1,
            (fillBuf (cap - e.recLen) rest).2) := by
        simp [fillBuf, hfit]
      rw [hfb] at happ
      simp only [List.cons_append, List.cons.injEq, true_and] at happ
      have hlen : (fillBuf (cap - e.recLen) rest).2.length < (e :: rest).length := by
        have : (fillBuf (cap - e.recLen) rest).2.length ≤ rest.length := by
          calc (fillBuf (cap - e.recLen) rest).2.length
              ≤ (fillBuf (cap - e.recLen) rest).1.length +
                  (fillBuf (cap - e.recLen) rest).2.length := by omega
            _ = rest.length := by rw [← List.length_append, happ]
        simp only [List.length_cons]
        omega
      obtain ⟨f, hf⟩ := enumerate_specGrow_yields_all
        (fillBuf (cap - e.recLen) rest).2 cap
        (headRecLen (fillBuf (cap - e.recLen) rest).2) hc (by omega)
      refine ⟨f + 1, ?_⟩
      have hnl : ¬ cap < e.recLen := by omega
      have hgd : getdents cap (e :: rest) =
          Except.ok (e :: (fillBuf (cap - e.recLen) rest).1,
            (fillBuf (cap - e.recLen) rest).2) := by
        simp [getdents, hnl, hfb]
      simp [enumerate, hgd, hf, happ]
    · have hk1 : 1 ≤ k := by
        simp only [headRecLen] at hk
        omega
      have h2 : specGrow cap = cap * 2 := by
        unfold specGrow reserveGrow
        omega
      have hk2 : headRecLen (e :: rest) ≤ specGrow cap + (k - 1) := by
        simp only [headRecLen] at hk ⊢
        omega
      have hcpos : 0 < specGrow cap := by omega
      obtain ⟨f, hf⟩ := enumerate_specGrow_yields_all (e :: rest)
        (specGrow cap) (k - 1) hcpos hk2
      refine ⟨f + 1, ?_⟩
      have hl : cap < e.recLen := by omega
      have hgd : getdents cap (e :: rest) = Except.error () := by
        simp [getdents, hl]
      simp only [enumerate, hgd]
      exact hf
termination_by pending _cap k => (pending.length, k)
decreasing_by
  · exact Prod.Lex.left _ _ hlen
  · exact Prod.Lex.right _ (by omega)

/-! ### The io_uring worker's traversal over the tree model

The `Worker` consults no device identifier anywhere: `Cli` parses
`--one-file-system` (src/main.rs:26-27) but the field is never read
again, and `Worker::traverse_dir` carries the
`// FIXME: one-file-system` marker (src/main.rs:225).  Entry types
come from the `getdents64` records (`RawDirEntry::file_type`), so no
per-entry `file_type` call can fail; `metaOk` gates the `statx`
(non-directories) or `openat` (directories) completion
(src/main.rs:185-209). -/

mutual

/-- Effect of `Worker::enqueue` plus the routing of the resulting
completion for one entry (src/main.rs:130-211): a non-directory gets a
`statx` whose size is recorded under the empty-file policy; a
directory gets an `openat` and, on success, a spawned `traverse_dir`
task.  A failed operation is reported and contributes nothing. -/
def workerVisit (ie : Bool) : FsNode → List Nat
  | FsNode.file sz _ _ mok =>
    if mok then (if ie || sz != 0 then [sz] else []) else []
  | FsNode.symlink sz _ _ mok =>
    if mok then (if ie || sz != 0 then [sz] else []) else []
  | FsNode.dir _ _ mok readable ents =>
    if mok then (if readable then workerList ie ents else []) else []

/-- The entry loop of `Worker::traverse_dir` (src/main.rs:227-255):
a listing failure other than `EINVAL` prints an error and breaks the
whole enumeration (`break 'done`), dropping the remaining entries;
`readable = false` on the opened directory models a listing that fails
before yielding anything. -/
def workerList (ie : Bool) : FsEntries → List Nat
  | FsEntries.nil => []
  | FsEntries.consOk n rest => workerVisit ie n ++ workerList ie rest
  | FsEntries.consErr _ => []

end

/-- The io_uring binary's whole run (src/main.rs:267-295):
`main` opens the root directory (`openat`, gated by the root's
`metaOk`; failure exits the process, modelled as `none`) and hands the
fd to `Worker::traverse_dir`.  The `oneFileSystem` parameter is the
parsed `--one-file-system` flag; it is accepted but never read by the
traversal. -/
def workerRun (oneFileSystem ie : Bool) (root : FsNode) :
    Option (List Nat) :=
  match root with
  | FsNode.dir _ _ mok readable ents =>
    if mok then some (if readable then workerList ie ents else [])
    else none
  | _ => none

/-- A root on device 0 containing a subdirectory on device 1 that
holds a regular file of size 7 (also on device 1), all calls
succeeding. -/
def crossDeviceTree : FsNode :=
  FsNode.dir 0 true true true
    (FsEntries.consOk
      (FsNode.dir 1 true true true
        (FsEntries.consOk (FsNode.file 7 1 true true) FsEntries.nil))
      FsEntries.nil)

/-- C4: the io_uring worker performs no device-identifier comparison.
On a tree whose subdirectory lives on a different device than the
root, a run with `--one-file-system` requested still descends into it
and records its file — identically to a run without the flag — so a
file on another filesystem does contribute to the histogram.  (The
rayon traversal of src/lib.rs, by contrast, skips the foreign
subtree.) -/
theorem worker_ignores_one_file_system :
    workerRun true false crossDeviceTree = some [7] ∧
      workerRun true false crossDeviceTree =
        workerRun false false crossDeviceTree ∧
      (traverseRoot false (some 0) crossDeviceTree).1 = [] := by
  decide

end Histodu
